import Mathlib

/-!
Shallow embedding of the ABI-bridging core of the `linux-rt` crate:
the `TimeSpec` time-value type (`src/lowlevel/clock.rs`), the
`CpuSet` affinity bitmask (`src/lowlevel/sched.rs`), and the
`Timex` / `TimexRaw` adjust-record pair with its conversion functions
(`src/clock.rs`, `src/lowlevel/clock.rs`).

Machine integers are modelled as `Int` (for the signed C types
`c_long` / `c_longlong`, both 64-bit on the 64-bit targets this crate
is built for) and as `Nat` bit patterns (for the unsigned words of
`cpu_set_t` and the `c_uint` / `c_int` bit-flag wrappers, written as
their two's-complement bit pattern).  Where the Rust code can overflow
an `i64`, the wrap-on-overflow semantics is made explicit with
`wrap64`; where the Rust code panics (checked multiplication, slice
indexing out of bounds, division by zero), the model returns `none`.
-/

namespace LinuxRt

/-- Smallest value of a 64-bit signed integer. -/
def i64Min : Int := -(2 ^ 63)

/-- Largest value of a 64-bit signed integer. -/
def i64Max : Int := 2 ^ 63 - 1

/-- Two's-complement wrap of an integer into the `i64` range,
the semantics of unchecked Rust integer arithmetic. -/
def wrap64 (x : Int) : Int := (x + 2 ^ 63) % 2 ^ 64 - 2 ^ 63

/-- Mirror of `Timeval` (`src/lowlevel/clock.rs`): seconds and
microseconds, both `c_long`. -/
structure Timeval where
  tv_sec : Int
  tv_usec : Int
deriving DecidableEq, Repr

/-- Mirror of `TimeSpec` (`src/lowlevel/clock.rs`): seconds (`c_long`)
and nanoseconds (`c_long`). -/
structure TimeSpec where
  tv_sec : Int
  tv_nsec : Int
deriving DecidableEq, Repr

namespace TimeSpec

/-- `TimeSpec::zeroed`. -/
def zeroed : TimeSpec := ⟨0, 0⟩

/-- `TimeSpec::seconds`. -/
def seconds (s : Int) : TimeSpec := ⟨s, 0⟩

/-- `TimeSpec::milliseconds`: the source computes
`(sec, nsec) = (x / 1_000, x % 1_000)` with Rust (truncating) `i64`
division and stores the raw remainder in `tv_nsec`. -/
def milliseconds (x : Int) : TimeSpec := ⟨Int.tdiv x 1000, Int.tmod x 1000⟩

/-- `TimeSpec::microseconds`: the source computes
`(sec, nsec) = (x / 1_000_000, x % 1_000_000)` and stores the raw
remainder in `tv_nsec`. -/
def microseconds (x : Int) : TimeSpec := ⟨Int.tdiv x 1000000, Int.tmod x 1000000⟩

/-- `TimeSpec::nanoseconds`: `(sec, nsec) = (n / 1e9, n % 1e9)` with
Rust truncating `i64` division and remainder. -/
def nanoseconds (n : Int) : TimeSpec := ⟨Int.tdiv n 1000000000, Int.tmod n 1000000000⟩

/-- `TimeSpec::as_nanoseconds`: `tv_sec * 1_000_000_000 + tv_nsec` in
`i64` arithmetic (wrapping on overflow). -/
def as_nanoseconds (t : TimeSpec) : Int := wrap64 (t.tv_sec * 1000000000 + t.tv_nsec)

/-- `impl Neg for TimeSpec`: negate the total nanoseconds and
renormalize through `nanoseconds`. -/
def neg (t : TimeSpec) : TimeSpec := nanoseconds (wrap64 (-t.as_nanoseconds))

/-- `impl Add for TimeSpec`: add the totals, renormalize. -/
def add (a b : TimeSpec) : TimeSpec :=
  nanoseconds (wrap64 (a.as_nanoseconds + b.as_nanoseconds))

/-- `impl Sub for TimeSpec`: subtract the totals, renormalize. -/
def sub (a b : TimeSpec) : TimeSpec :=
  nanoseconds (wrap64 (a.as_nanoseconds - b.as_nanoseconds))

/-- `impl Mul for TimeSpec`: `checked_mul` then renormalize; the
source panics (`expect`) when the product leaves the `i64` range,
modelled as `none`. -/
def mul (a : TimeSpec) (rhs : Int) : Option TimeSpec :=
  if i64Min ≤ a.as_nanoseconds * rhs ∧ a.as_nanoseconds * rhs ≤ i64Max then
    some (nanoseconds (a.as_nanoseconds * rhs))
  else none

/-- `impl Div for TimeSpec`: truncating division of the total by the
divisor; Rust `i64` division panics on divisor `0` and on
`i64::MIN / -1`, modelled as `none`. -/
def div (a : TimeSpec) (rhs : Int) : Option TimeSpec :=
  if rhs = 0 ∨ (a.as_nanoseconds = i64Min ∧ rhs = -1) then none
  else some (nanoseconds (Int.tdiv a.as_nanoseconds rhs))

end TimeSpec

/-- Mirror of `TimexMode` (`src/clock.rs`): a newtype over `c_uint`;
the raw value is the 32-bit pattern, modelled as `Nat`. -/
structure TimexMode where
  raw : Nat
deriving DecidableEq, Repr

namespace TimexMode

/-- `TimexMode::is_set`: `self.0 & mode == mode`. -/
def is_set (m : TimexMode) (mode : Nat) : Bool := m.raw &&& mode == mode

/-- `TimexMode::set`: `self.0 |= mode`. -/
def set (m : TimexMode) (mode : Nat) : TimexMode := ⟨m.raw ||| mode⟩

/-- `TimexMode::as_raw`. -/
def as_raw (m : TimexMode) : Nat := m.raw

/-- `TimexMode::from_raw`. -/
def from_raw (r : Nat) : TimexMode := ⟨r⟩

end TimexMode

/-- Mirror of `StatusCodes` (`src/clock.rs`): a newtype over `c_int`;
the raw value is modelled as its 32-bit two's-complement pattern. -/
structure StatusCodes where
  raw : Nat
deriving DecidableEq, Repr

namespace StatusCodes

/-- `StatusCodes::is_set`: `self.0 & status_code == status_code`. -/
def is_set (s : StatusCodes) (status_code : Nat) : Bool := s.raw &&& status_code == status_code

/-- `StatusCodes::set`: `self.0 |= status_code`. -/
def set (s : StatusCodes) (status_code : Nat) : StatusCodes := ⟨s.raw ||| status_code⟩

/-- `StatusCodes::as_raw`. -/
def as_raw (s : StatusCodes) : Nat := s.raw

/-- `StatusCodes::from_raw`. -/
def from_raw (r : Nat) : StatusCodes := ⟨r⟩

end StatusCodes

/-- Mirror of the sparse `Timex` record (`src/clock.rs`), field for
field in declared order. -/
structure Timex where
  modes : TimexMode
  offset : Int
  freq : Int
  maxerror : Int
  esterror : Int
  status : StatusCodes
  constant : Int
  precision : Int
  tolerance : Int
  time : Timeval
  tick : Int
  ppsfreq : Int
  jitter : Int
  shift : Int
  stabil : Int
  jitcnt : Int
  calcnt : Int
  errcnt : Int
  stbcnt : Int
  tai : Int
deriving DecidableEq, Repr

/-- Mirror of the kernel-ABI struct `TimexRaw`
(`src/lowlevel/clock.rs`), with its explicit padding words and the
11-word `__reserved` block. -/
structure TimexRaw where
  modes : Nat
  _pad : Nat
  offset : Int
  freq : Int
  maxerror : Int
  esterror : Int
  status : Nat
  _pad2 : Nat
  constant : Int
  precision : Int
  tolerance : Int
  time : Timeval
  tick : Int
  ppsfreq : Int
  jitter : Int
  shift : Int
  _pad3 : Nat
  stabil : Int
  jitcnt : Int
  calcnt : Int
  errcnt : Int
  stbcnt : Int
  tai : Int
  __reserved : List Nat
deriving DecidableEq, Repr

namespace TimexRaw

/-- `TimexRaw::from_timex`: build the mirror field by field,
zero-filling the padding and reserved slots. -/
def from_timex (timex : Timex) : TimexRaw where
  modes := timex.modes.as_raw
  _pad := 0
  offset := timex.offset
  freq := timex.freq
  maxerror := timex.maxerror
  esterror := timex.esterror
  status := timex.status.as_raw
  _pad2 := 0
  constant := timex.constant
  precision := timex.precision
  tolerance := timex.tolerance
  time := timex.time
  tick := timex.tick
  ppsfreq := timex.ppsfreq
  jitter := timex.jitter
  shift := timex.shift
  _pad3 := 0
  stabil := timex.stabil
  jitcnt := timex.jitcnt
  calcnt := timex.calcnt
  errcnt := timex.errcnt
  stbcnt := timex.stbcnt
  tai := timex.tai
  __reserved := List.replicate 11 0

/-- `TimexRaw::into_timex`: build the sparse record field by field,
re-wrapping the mode and status words and dropping padding/reserved. -/
def into_timex (raw : TimexRaw) : Timex where
  modes := TimexMode.from_raw raw.modes
  offset := raw.offset
  freq := raw.freq
  maxerror := raw.maxerror
  esterror := raw.esterror
  status := StatusCodes.from_raw raw.status
  constant := raw.constant
  precision := raw.precision
  tolerance := raw.tolerance
  time := raw.time
  tick := raw.tick
  ppsfreq := raw.ppsfreq
  jitter := raw.jitter
  shift := raw.shift
  stabil := raw.stabil
  jitcnt := raw.jitcnt
  calcnt := raw.calcnt
  errcnt := raw.errcnt
  stbcnt := raw.stbcnt
  tai := raw.tai

end TimexRaw

/-- Result of the raw `clock_adjtime` syscall as seen by the wrapper
(`src/lowlevel/clock.rs`): the kernel is an external collaborator that
receives the marshalled `TimexRaw` buffer and yields a signed return
value together with the updated buffer contents. -/
def KernelAdjtime : Type := TimexRaw → Int × TimexRaw

/-- `clock_adjtime` wrapper semantics of the `syscall!` macro: a
negative kernel return `-e` becomes the typed error `Errno e`,
otherwise the nonnegative return is the success value.  The updated
buffer is returned alongside. -/
def clock_adjtime (kernel : KernelAdjtime) (buf : TimexRaw) : Except Int Int × TimexRaw :=
  if (kernel buf).1 < 0 then (Except.error (-(kernel buf).1), (kernel buf).2)
  else (Except.ok (kernel buf).1, (kernel buf).2)

/-- `adjust_time` (`src/clock.rs`): marshal the sparse record into a
fresh mirror, invoke the kernel, and only on success overwrite the
caller's record from the kernel-updated mirror.  The second component
is the final state of the caller's `&mut Timex`; on the error path the
early return (`?`) fires before the write-back, so it is the original
record. -/
def adjust_time (kernel : KernelAdjtime) (timex : Timex) : Except Int Unit × Timex :=
  match clock_adjtime kernel (TimexRaw.from_timex timex) with
  | (Except.error e, _) => (Except.error e, timex)
  | (Except.ok _, timex_raw) => (Except.ok (), timex_raw.into_timex)

/-- Number of words in `cpu_set_t` on a 64-bit target
(`CPU_SET_SIZE` in `src/lowlevel/sched.rs`). -/
def CPU_SET_SIZE : Nat := 16

/-- Bit width of one affinity word (`Map = u64`, `Map::BITS`). -/
def MapBITS : Nat := 64

/-- All-ones affinity word (`Map::MAX = u64::MAX`). -/
def MapMAX : Nat := 2 ^ 64 - 1

/-- Mirror of `CpuSet` (`src/lowlevel/sched.rs`): the array
`bits: [u64; 16]` modelled as a list of word bit patterns. -/
structure CpuSet where
  bits : List Nat
deriving DecidableEq, Repr

namespace CpuSet

/-- `CpuSet::empty`: all words zero. -/
def empty : CpuSet := ⟨List.replicate CPU_SET_SIZE 0⟩

/-- `CpuSet::full`: all words all-ones. -/
def full : CpuSet := ⟨List.replicate CPU_SET_SIZE MapMAX⟩

/-- `CpuSet::from_bitmask` (64-bit branch): the low word holds the
whole 64-bit mask, higher words stay zero. -/
def from_bitmask (bitmask : Nat) : CpuSet := ⟨(List.replicate CPU_SET_SIZE 0).set 0 bitmask⟩

/-- `CpuSet::set`: `bits[core / 64] |= 1 << (core % 64)`; Rust slice
indexing panics when the word index is past the array, modelled as
`none`. -/
def set (cs : CpuSet) (core : Nat) : Option CpuSet :=
  if core / MapBITS < cs.bits.length then
    some ⟨cs.bits.set (core / MapBITS)
      (cs.bits.getD (core / MapBITS) 0 ||| 1 <<< (core % MapBITS))⟩
  else none

/-- `CpuSet::clear`: `bits[core / 64] &= !(1 << (core % 64))`; the
`u64` complement of the single bit is `MapMAX ^^^ (1 <<< bit)`.
Out-of-bounds indexing panics, modelled as `none`. -/
def clear (cs : CpuSet) (core : Nat) : Option CpuSet :=
  if core / MapBITS < cs.bits.length then
    some ⟨cs.bits.set (core / MapBITS)
      (cs.bits.getD (core / MapBITS) 0 &&& (MapMAX ^^^ 1 <<< (core % MapBITS)))⟩
  else none

/-- `CpuSet::is_set`: `bits[core / 64] & (1 << (core % 64)) > 0`;
out-of-bounds indexing panics, modelled as `none`. -/
def is_set (cs : CpuSet) (core : Nat) : Option Bool :=
  if core / MapBITS < cs.bits.length then
    some (decide (cs.bits.getD (core / MapBITS) 0 &&& 1 <<< (core % MapBITS) > 0))
  else none

end CpuSet

/-- Bound on the nanoseconds field actually guaranteed by the
truncating split: the canonical-form window extended symmetrically to
negative values. -/
def nsecBounded (t : TimeSpec) : Prop :=
  -999999999 ≤ t.tv_nsec ∧ t.tv_nsec ≤ 999999999

instance (t : TimeSpec) : Decidable (nsecBounded t) := by
  unfold nsecBounded; infer_instance

/-! Helper lemmas about truncating division and 64-bit wrapping. -/

theorem tmod_neg_left (a b : Int) : Int.tmod (-a) b = -Int.tmod a b := by
  have h1 := Int.tdiv_add_tmod a b
  have h2 := Int.tdiv_add_tmod (-a) b
  rw [Int.neg_tdiv, mul_neg] at h2
  omega

/-- Characterization of Rust `i64` division and remainder by a
positive divisor: reconstruction, magnitude bound, and the remainder
taking the sign of the dividend. -/
theorem tdiv_tmod_char (a b : Int) (hb : 0 < b) :
    b * Int.tdiv a b + Int.tmod a b = a ∧
    -b < Int.tmod a b ∧ Int.tmod a b < b ∧
    (0 ≤ a → 0 ≤ Int.tmod a b) ∧ (a ≤ 0 → Int.tmod a b ≤ 0) := by
  have h1 := Int.tdiv_add_tmod a b
  have h2 := Int.tmod_lt_of_pos a hb
  have h3 : 0 ≤ a → 0 ≤ Int.tmod a b := fun ha => Int.tmod_nonneg b ha
  have h4 : a ≤ 0 → Int.tmod a b ≤ 0 := by
    intro ha
    have h5 : 0 ≤ Int.tmod (-a) b := Int.tmod_nonneg b (by omega)
    rw [tmod_neg_left] at h5
    omega
  have h6 : -b < Int.tmod a b := by
    rcases le_or_lt 0 a with ha | ha
    · have := h3 ha; omega
    · have h7 := Int.tmod_lt_of_pos (-a) hb
      rw [tmod_neg_left] at h7
      omega
  exact ⟨h1, h6, h2, h3, h4⟩

theorem wrap64_eq_self {x : Int} (h1 : i64Min ≤ x) (h2 : x ≤ i64Max) :
    wrap64 x = x := by
  unfold i64Min at h1
  unfold i64Max at h2
  unfold wrap64
  omega

theorem wrap64_mem_range (x : Int) : i64Min ≤ wrap64 x ∧ wrap64 x ≤ i64Max := by
  unfold i64Min i64Max wrap64
  omega

/-- The accessor always lands in the `i64` range (it is a wrapped
64-bit computation). -/
theorem as_nanoseconds_mem_range (t : TimeSpec) :
    i64Min ≤ t.as_nanoseconds ∧ t.as_nanoseconds ≤ i64Max :=
  wrap64_mem_range _

/-- Characterization of the truncating nanosecond split. -/
theorem nanoseconds_char (n : Int) :
    (TimeSpec.nanoseconds n).tv_sec * 1000000000 + (TimeSpec.nanoseconds n).tv_nsec = n ∧
    -1000000000 < (TimeSpec.nanoseconds n).tv_nsec ∧
    (TimeSpec.nanoseconds n).tv_nsec < 1000000000 ∧
    (0 ≤ n → 0 ≤ (TimeSpec.nanoseconds n).tv_nsec) ∧
    (n ≤ 0 → (TimeSpec.nanoseconds n).tv_nsec ≤ 0) := by
  have h := tdiv_tmod_char n 1000000000 (by norm_num)
  simp only [TimeSpec.nanoseconds]
  omega

/-- Round trip of the split through the accessor, for totals in the
`i64` range. -/
theorem as_nanoseconds_nanoseconds {n : Int} (h1 : i64Min ≤ n) (h2 : n ≤ i64Max) :
    (TimeSpec.nanoseconds n).as_nanoseconds = n := by
  have h := nanoseconds_char n
  simp only [TimeSpec.as_nanoseconds, h.1]
  exact wrap64_eq_self h1 h2

theorem nsecBounded_nanoseconds (n : Int) : nsecBounded (TimeSpec.nanoseconds n) := by
  have h := nanoseconds_char n
  unfold nsecBounded
  omega

/-! The claims. -/

/-- Claim C1: converting a `Timex` to the kernel-ABI mirror and back
(`TimexRaw.from_timex` then `TimexRaw.into_timex`) restores every
field exactly, and the mirror produced by `from_timex` has all three
padding words and the whole 11-word `__reserved` block zero. -/
theorem C1_timex_mirror_round_trip (t : Timex) :
    (TimexRaw.from_timex t).into_timex = t ∧
    (TimexRaw.from_timex t)._pad = 0 ∧
    (TimexRaw.from_timex t)._pad2 = 0 ∧
    (TimexRaw.from_timex t)._pad3 = 0 ∧
    (TimexRaw.from_timex t).__reserved = List.replicate 11 0 :=
  ⟨rfl, rfl, rfl, rfl, rfl⟩

/-- Claim C2 (code bug evidence): `TimeSpec.milliseconds` and
`TimeSpec.microseconds` store the unscaled sub-second remainder
directly into the nanoseconds field, so `milliseconds 1` is one
nanosecond rather than `nanoseconds 1000000`, `microseconds 1` is one
nanosecond rather than `nanoseconds 1000`, and the factory does not
even round-trip with the crate's own `as_milliseconds` accessor. -/
theorem C2_factories_unscaled_remainder :
    TimeSpec.milliseconds 1 = ⟨0, 1⟩ ∧
    TimeSpec.microseconds 1 = ⟨0, 1⟩ ∧
    TimeSpec.nanoseconds 1000000 = ⟨0, 1000000⟩ ∧
    TimeSpec.nanoseconds 1000 = ⟨0, 1000⟩ ∧
    TimeSpec.milliseconds 1 ≠ TimeSpec.nanoseconds 1000000 ∧
    TimeSpec.microseconds 1 ≠ TimeSpec.nanoseconds 1000 := by
  decide

/-- Claim C3: `TimeSpec.nanoseconds` splits with truncating
(toward-zero) division: the two fields reconstruct the input, the
remainder has magnitude below `10^9` and carries the sign of the
input, and on `-1999999999` both components are negative. -/
theorem C3_nanoseconds_truncating (n : Int) :
    ((TimeSpec.nanoseconds n).tv_sec * 1000000000 + (TimeSpec.nanoseconds n).tv_nsec = n ∧
     -1000000000 < (TimeSpec.nanoseconds n).tv_nsec ∧
     (TimeSpec.nanoseconds n).tv_nsec < 1000000000 ∧
     (0 ≤ n → 0 ≤ (TimeSpec.nanoseconds n).tv_nsec) ∧
     (n ≤ 0 → (TimeSpec.nanoseconds n).tv_nsec ≤ 0)) ∧
    TimeSpec.nanoseconds (-1999999999) = ⟨-1, -999999999⟩ :=
  ⟨nanoseconds_char n, by decide⟩

theorem C3_witness :
    ((TimeSpec.nanoseconds (-5)).tv_sec * 1000000000 + (TimeSpec.nanoseconds (-5)).tv_nsec = -5 ∧
     -1000000000 < (TimeSpec.nanoseconds (-5)).tv_nsec ∧
     (TimeSpec.nanoseconds (-5)).tv_nsec < 1000000000 ∧
     (0 ≤ (-5 : Int) → 0 ≤ (TimeSpec.nanoseconds (-5)).tv_nsec) ∧
     ((-5 : Int) ≤ 0 → (TimeSpec.nanoseconds (-5)).tv_nsec ≤ 0)) ∧
    TimeSpec.nanoseconds (-1999999999) = ⟨-1, -999999999⟩ :=
  C3_nanoseconds_truncating (-5)

/-- Claim C4: for every `n` in the `i64` range,
`(TimeSpec.nanoseconds n).as_nanoseconds = n`, and the reconstruction
`tv_sec * 1_000_000_000 + tv_nsec` stays inside the `i64` range at
every step (no overflow). -/
theorem C4_as_nanoseconds_round_trip (n : Int) (h1 : i64Min ≤ n) (h2 : n ≤ i64Max) :
    (TimeSpec.nanoseconds n).as_nanoseconds = n ∧
    i64Min ≤ (TimeSpec.nanoseconds n).tv_sec * 1000000000 ∧
    (TimeSpec.nanoseconds n).tv_sec * 1000000000 ≤ i64Max ∧
    i64Min ≤ (TimeSpec.nanoseconds n).tv_sec * 1000000000 + (TimeSpec.nanoseconds n).tv_nsec ∧
    (TimeSpec.nanoseconds n).tv_sec * 1000000000 + (TimeSpec.nanoseconds n).tv_nsec ≤ i64Max := by
  have h := nanoseconds_char n
  refine ⟨as_nanoseconds_nanoseconds h1 h2, ?_, ?_, ?_, ?_⟩ <;>
    simp only [i64Min, i64Max] at h1 h2 ⊢ <;> omega

theorem C4_witness :
    i64Min ≤ (-1999999999 : Int) ∧ (-1999999999 : Int) ≤ i64Max ∧
    (TimeSpec.nanoseconds (-1999999999)).as_nanoseconds = -1999999999 :=
  ⟨by decide, by decide,
    (C4_as_nanoseconds_round_trip (-1999999999) (by decide) (by decide)).1⟩

/-- Claim C5 is false as stated: the factory `TimeSpec.nanoseconds`
produces a negative `tv_nsec` on the negative input `-1`, violating
the claimed lower bound `0 ≤ tv_nsec`. -/
theorem C5_counterexample :
    (TimeSpec.nanoseconds (-1)).tv_nsec = -1 ∧
    ¬0 ≤ (TimeSpec.nanoseconds (-1)).tv_nsec := by
  decide

/-- Claim C5 (amended): every `TimeSpec` produced by a factory
(`seconds`, `milliseconds`, `microseconds`, `nanoseconds`) or by an
arithmetic operator (`neg`, `add`, `sub`, `mul`, `div`) satisfies
`-999_999_999 ≤ tv_nsec ≤ 999_999_999`; the claimed lower bound `0`
additionally holds whenever the represented total is nonnegative. -/
theorem C5_factory_operator_nsec_bound (n : Int) (a b : TimeSpec) (r : Int) :
    nsecBounded (TimeSpec.seconds n) ∧
    nsecBounded (TimeSpec.milliseconds n) ∧
    nsecBounded (TimeSpec.microseconds n) ∧
    nsecBounded (TimeSpec.nanoseconds n) ∧
    (0 ≤ n → 0 ≤ (TimeSpec.nanoseconds n).tv_nsec) ∧
    nsecBounded (TimeSpec.neg a) ∧
    nsecBounded (TimeSpec.add a b) ∧
    nsecBounded (TimeSpec.sub a b) ∧
    (∀ t, TimeSpec.mul a r = some t → nsecBounded t) ∧
    (∀ t, TimeSpec.div a r = some t → nsecBounded t) := by
  have hms := tdiv_tmod_char n 1000 (by norm_num)
  have hus := tdiv_tmod_char n 1000000 (by norm_num)
  refine ⟨?_, ?_, ?_, nsecBounded_nanoseconds n, (nanoseconds_char n).2.2.2.1,
    nsecBounded_nanoseconds _, nsecBounded_nanoseconds _, nsecBounded_nanoseconds _,
    ?_, ?_⟩
  · simp only [nsecBounded, TimeSpec.seconds]; omega
  · simp only [nsecBounded, TimeSpec.milliseconds]; omega
  · simp only [nsecBounded, TimeSpec.microseconds]; omega
  · intro t ht
    unfold TimeSpec.mul at ht
    split at ht
    · cases ht; exact nsecBounded_nanoseconds _
    · cases ht
  · intro t ht
    unfold TimeSpec.div at ht
    split at ht
    · cases ht
    · cases ht; exact nsecBounded_nanoseconds _

theorem C5_witness :
    nsecBounded (TimeSpec.milliseconds 7) ∧
    nsecBounded (TimeSpec.add ⟨0, 3⟩ ⟨0, 4⟩) :=
  ⟨(C5_factory_operator_nsec_bound 7 ⟨0, 3⟩ ⟨0, 4⟩ 1).2.1,
   (C5_factory_operator_nsec_bound 7 ⟨0, 3⟩ ⟨0, 4⟩ 1).2.2.2.2.2.2.1⟩

set_option maxRecDepth 10000 in
/-- Claim C6 is false as stated: for the (non-truncated-form) value
`a = ⟨0, 10^9⟩` and `b = ⟨0, 0⟩`, `(a + b) - b` renormalizes to
`⟨1, 0⟩`, which is not field-by-field equal to `a`. -/
theorem C6_counterexample :
    TimeSpec.sub (TimeSpec.add ⟨0, 1000000000⟩ ⟨0, 0⟩) ⟨0, 0⟩ = ⟨1, 0⟩ ∧
    (⟨1, 0⟩ : TimeSpec) ≠ ⟨0, 1000000000⟩ := by
  decide

/-- Claim C6 (amended): for all `a b : TimeSpec` whose total
nanoseconds sum stays in the `i64` range, `(a + b) - b` always equals
`a` in represented total nanoseconds, and is structurally
(field-by-field) equal to `a` whenever `a` is itself in the truncated
form produced by the `nanoseconds` factory. -/
theorem C6_add_sub_round_trip (a b : TimeSpec)
    (h1 : i64Min ≤ a.as_nanoseconds + b.as_nanoseconds)
    (h2 : a.as_nanoseconds + b.as_nanoseconds ≤ i64Max) :
    (TimeSpec.sub (TimeSpec.add a b) b).as_nanoseconds = a.as_nanoseconds ∧
    (a = TimeSpec.nanoseconds a.as_nanoseconds →
      TimeSpec.sub (TimeSpec.add a b) b = a) := by
  have hra := as_nanoseconds_mem_range a
  have hadd : TimeSpec.add a b =
      TimeSpec.nanoseconds (a.as_nanoseconds + b.as_nanoseconds) := by
    unfold TimeSpec.add
    rw [wrap64_eq_self h1 h2]
  have hsum : (TimeSpec.add a b).as_nanoseconds =
      a.as_nanoseconds + b.as_nanoseconds := by
    rw [hadd]; exact as_nanoseconds_nanoseconds h1 h2
  have hsub : TimeSpec.sub (TimeSpec.add a b) b =
      TimeSpec.nanoseconds a.as_nanoseconds := by
    unfold TimeSpec.sub
    rw [hsum]
    have he : a.as_nanoseconds + b.as_nanoseconds - b.as_nanoseconds =
        a.as_nanoseconds := by ring
    rw [he, wrap64_eq_self hra.1 hra.2]
  refine ⟨?_, fun ha => by rw [hsub, ← ha]⟩
  rw [hsub]
  exact as_nanoseconds_nanoseconds hra.1 hra.2

set_option maxRecDepth 10000 in
theorem C6_witness :
    i64Min ≤ (⟨0, 5⟩ : TimeSpec).as_nanoseconds + (⟨0, 7⟩ : TimeSpec).as_nanoseconds ∧
    (⟨0, 5⟩ : TimeSpec).as_nanoseconds + (⟨0, 7⟩ : TimeSpec).as_nanoseconds ≤ i64Max ∧
    (TimeSpec.sub (TimeSpec.add ⟨0, 5⟩ ⟨0, 7⟩) ⟨0, 7⟩).as_nanoseconds =
      (⟨0, 5⟩ : TimeSpec).as_nanoseconds :=
  ⟨by decide, by decide,
    (C6_add_sub_round_trip ⟨0, 5⟩ ⟨0, 7⟩ (by decide) (by decide)).1⟩

/-- Claim C7: when the kernel call inside `adjust_time` returns a
negative result, `adjust_time` returns the typed error carrying the
platform error code (the negated kernel return) and the caller's
`Timex` record is returned unmodified; the write-back from the
kernel-updated mirror happens only on success. -/
theorem C7_adjust_time_error_path (kernel : KernelAdjtime) (timex : Timex)
    (h : (kernel (TimexRaw.from_timex timex)).1 < 0) :
    adjust_time kernel timex =
      (Except.error (-(kernel (TimexRaw.from_timex timex)).1), timex) := by
  unfold adjust_time clock_adjtime
  rw [if_pos h]

theorem C7_witness :
    ((fun r : TimexRaw => ((-22 : Int), r))
        (TimexRaw.from_timex (Timex.mk ⟨0⟩ 0 0 0 0 ⟨0⟩ 0 0 0 ⟨0, 0⟩ 0 0 0 0 0 0 0 0 0 0))).1 < 0 ∧
    adjust_time (fun r : TimexRaw => ((-22 : Int), r))
        (Timex.mk ⟨0⟩ 0 0 0 0 ⟨0⟩ 0 0 0 ⟨0, 0⟩ 0 0 0 0 0 0 0 0 0 0) =
      (Except.error 22, Timex.mk ⟨0⟩ 0 0 0 0 ⟨0⟩ 0 0 0 ⟨0, 0⟩ 0 0 0 0 0 0 0 0 0 0) :=
  ⟨by decide,
    C7_adjust_time_error_path (fun r => (-22, r))
      (Timex.mk ⟨0⟩ 0 0 0 0 ⟨0⟩ 0 0 0 ⟨0, 0⟩ 0 0 0 0 0 0 0 0 0 0) (by decide)⟩

theorem two_pow_and_two_pow_ne {a b : Nat} (h : a ≠ b) : 2 ^ a &&& 2 ^ b = 0 := by
  rw [Nat.and_two_pow, Nat.testBit_two_pow]
  simp [h]

/-- Claim C8: inside the representable range of 1024 CPU indices,
setting a core in the empty set makes exactly that core read back as
set: `is_set` answers `true` at the set index and `false` at every
other in-range index. -/
theorem C8_empty_set_is_set (core j : Nat) (hc : core < 1024) (hj : j < 1024) :
    CPU_SET_SIZE * MapBITS = 1024 ∧
    ∃ s : CpuSet, CpuSet.empty.set core = some s ∧
      s.is_set core = some true ∧
      (j ≠ core → s.is_set j = some false) := by
  refine ⟨rfl, ?_⟩
  have hbits : CpuSet.empty.bits = List.replicate 16 0 := rfl
  have hidx : core / MapBITS < 16 := by
    simp only [MapBITS]; omega
  have hjdx : j / MapBITS < 16 := by
    simp only [MapBITS]; omega
  have hgetD : (List.replicate 16 (0 : Nat)).getD (core / MapBITS) 0 = 0 := by
    rw [List.getD_eq_getElem?_getD, List.getElem?_replicate, if_pos hidx]
    rfl
  have hw : (0 : Nat) ||| 1 <<< (core % MapBITS) = 2 ^ (core % MapBITS) := by
    rw [Nat.zero_or, Nat.shiftLeft_eq, one_mul]
  refine ⟨⟨(List.replicate 16 0).set (core / MapBITS) (2 ^ (core % MapBITS))⟩, ?_, ?_, ?_⟩
  · unfold CpuSet.set
    rw [hbits, List.length_replicate, if_pos hidx, hgetD, hw]
  · unfold CpuSet.is_set
    simp only [List.length_set, List.length_replicate]
    rw [if_pos hidx]
    have hword : ((List.replicate 16 (0 : Nat)).set (core / MapBITS)
        (2 ^ (core % MapBITS))).getD (core / MapBITS) 0 = 2 ^ (core % MapBITS) := by
      rw [List.getD_eq_getElem?_getD, List.getElem?_set]
      rw [if_pos rfl, List.length_replicate, if_pos hidx]
      rfl
    rw [hword, Nat.shiftLeft_eq, one_mul, Nat.and_self]
    have hp : 0 < 2 ^ (core % MapBITS) := Nat.pos_pow_of_pos _ (by norm_num)
    simp [hp]
  · intro hne
    unfold CpuSet.is_set
    simp only [List.length_set, List.length_replicate]
    rw [if_pos hjdx]
    by_cases hix : core / MapBITS = j / MapBITS
    · have hbit : core % MapBITS ≠ j % MapBITS := by
        simp only [MapBITS] at hix ⊢; omega
      have hword : ((List.replicate 16 (0 : Nat)).set (core / MapBITS)
          (2 ^ (core % MapBITS))).getD (j / MapBITS) 0 = 2 ^ (core % MapBITS) := by
        rw [List.getD_eq_getElem?_getD, List.getElem?_set]
        rw [if_pos hix, List.length_replicate, if_pos hidx]
        rfl
      rw [hword, Nat.shiftLeft_eq, one_mul, two_pow_and_two_pow_ne hbit]
      simp
    · have hword : ((List.replicate 16 (0 : Nat)).set (core / MapBITS)
          (2 ^ (core % MapBITS))).getD (j / MapBITS) 0 = 0 := by
        rw [List.getD_eq_getElem?_getD, List.getElem?_set]
        rw [if_neg hix, List.getElem?_replicate, if_pos hjdx]
        rfl
      rw [hword, Nat.zero_and]
      simp

theorem C8_witness :
    (5 : Nat) < 1024 ∧ (70 : Nat) < 1024 ∧
    (CPU_SET_SIZE * MapBITS = 1024 ∧
      ∃ s : CpuSet, CpuSet.empty.set 5 = some s ∧
        s.is_set 5 = some true ∧
        ((70 : Nat) ≠ 5 → s.is_set 70 = some false)) :=
  ⟨by decide, by decide, C8_empty_set_is_set 5 70 (by decide) (by decide)⟩

/-- Claim C9: for every core index at or past the total representable
bits (`CPU_SET_SIZE * MapBITS = 1024`), `set`, `clear` and `is_set`
take the out-of-bounds branch of the word indexing (the Rust slice
panic, modelled as `none`) instead of wrapping the index or touching
any word of the array. -/
theorem C9_out_of_range_fails (cs : CpuSet) (core : Nat)
    (hlen : cs.bits.length = CPU_SET_SIZE) (h : CPU_SET_SIZE * MapBITS ≤ core) :
    cs.set core = none ∧ cs.clear core = none ∧ cs.is_set core = none := by
  have hno : ¬core / MapBITS < cs.bits.length := by
    rw [hlen]
    simp only [CPU_SET_SIZE, MapBITS] at h ⊢
    omega
  unfold CpuSet.set CpuSet.clear CpuSet.is_set
  rw [if_neg hno, if_neg hno, if_neg hno]
  exact ⟨rfl, rfl, rfl⟩

theorem C9_witness :
    CpuSet.empty.bits.length = CPU_SET_SIZE ∧ CPU_SET_SIZE * MapBITS ≤ 1024 ∧
    CpuSet.empty.set 1024 = none ∧ CpuSet.empty.clear 1024 = none ∧
    CpuSet.empty.is_set 1024 = none :=
  ⟨rfl, by decide,
    (C9_out_of_range_fails CpuSet.empty 1024 rfl (by decide)).1,
    (C9_out_of_range_fails CpuSet.empty 1024 rfl (by decide)).2.1,
    (C9_out_of_range_fails CpuSet.empty 1024 rfl (by decide)).2.2⟩

theorem and_eq_right_iff (x c : Nat) :
    x &&& c = c ↔ ∀ i, c.testBit i = true → x.testBit i = true := by
  constructor
  · intro h i hi
    have hb := congrArg (fun t => Nat.testBit t i) h
    simp only [Nat.testBit_and] at hb
    rw [hi] at hb
    simpa using hb
  · intro h
    apply Nat.eq_of_testBit_eq
    intro i
    rw [Nat.testBit_and]
    cases hci : c.testBit i
    · simp
    · simp [h i hci]

/-- Claim C10: `TimexMode.is_set c` answers `true` exactly when every
bit of `c` is set in the stored mode word (`raw &&& c = c`), so
`is_set 0` is `true` for every mode value, the default all-zero one
included; the same holds for `StatusCodes.is_set`. -/
theorem C10_is_set_bit_containment (m : TimexMode) (s : StatusCodes) (c : Nat) :
    (m.is_set c = true ↔ ∀ i, c.testBit i = true → m.raw.testBit i = true) ∧
    m.is_set 0 = true ∧
    (s.is_set c = true ↔ ∀ i, c.testBit i = true → s.raw.testBit i = true) ∧
    s.is_set 0 = true := by
  refine ⟨?_, ?_, ?_, ?_⟩
  · rw [show m.is_set c = (m.raw &&& c == c) from rfl, beq_iff_eq]
    exact and_eq_right_iff m.raw c
  · simp [TimexMode.is_set]
  · rw [show s.is_set c = (s.raw &&& c == c) from rfl, beq_iff_eq]
    exact and_eq_right_iff s.raw c
  · simp [StatusCodes.is_set]

theorem C10_witness :
    (TimexMode.from_raw 0).is_set 0 = true ∧
    (StatusCodes.from_raw 0).is_set 0 = true :=
  ⟨(C10_is_set_bit_containment (TimexMode.from_raw 0) (StatusCodes.from_raw 0) 3).2.1,
   (C10_is_set_bit_containment (TimexMode.from_raw 0) (StatusCodes.from_raw 0) 3).2.2.2⟩

end LinuxRt
